import Mathlib

/-!
Verification of `models/common.py` (underwater YOLOv5 variant).

This file gives a shallow embedding of the data model and operations of the
repository's single source file, `src/models/common.py`, and proves the
specification claims about it.  Machine floats are embedded as exact
rationals (`ℚ`) or reals (`ℝ`) as appropriate; tensors are index functions;
Python exceptions are `Except`; external framework calls that no claim
constrains are fields of an environment record.
-/

namespace YoloCommon

/-! ## String helpers (Python `in`, `pathlib.Path.name`, `with_suffix`) -/

/-- `needle` occurs as a contiguous substring of `hay` (Python `s in p`). -/
def occursIn (needle hay : List Char) : Bool :=
  decide (needle.length ≤ hay.length) &&
    (List.range (hay.length - needle.length + 1)).any
      (fun i => decide ((hay.drop i).take needle.length = needle))

/-- Python `s in p` on strings. -/
def strOccurs (needle hay : String) : Bool :=
  occursIn needle.data hay.data

/-- Split a character list at every `/`. -/
def splitSlash : List Char → List (List Char)
  | [] => [[]]
  | c :: rest =>
    let r := splitSlash rest
    if c = '/' then [] :: r else (c :: r.headD []) :: r.tail

/-- Remove trailing `/` characters. -/
def dropTrailingSlash (cs : List Char) : List Char :=
  (cs.reverse.dropWhile (fun c => c = '/')).reverse

/-- `pathlib.Path(p).name`: the component after the last `/`, trailing
separators eliminated (the source comment at `model_type`:
"eliminate trailing separators"). -/
def pathName (p : String) : String :=
  ⟨(splitSlash (dropTrailingSlash p.data)).getLastD []⟩

/-- Index one past the last `.` of `cs` that sits strictly after position 0
(`pathlib` treats a leading dot as part of the stem, not a suffix);
`0` when there is no such dot. -/
def lastDotIdx (cs : List Char) : Nat :=
  ((List.range cs.length).filter (fun k => 0 < k ∧ cs.getD k ' ' = '.')).foldl
    (fun a b => max a b) 0

/-- `pathlib.Path(f).with_suffix('.jpg').name`: the file name with its last
extension replaced by `.jpg` (appended when there is none). -/
def withSuffixJpg (f : String) : String :=
  let n := pathName f
  let i := lastDotIdx n.data
  (if i = 0 then n else ⟨n.data.take i⟩) ++ ".jpg"

/-! ## `DetectMultiBackend.model_type` (src/models/common.py lines 519-529) -/

/-- The eleven backend flags returned by `DetectMultiBackend.model_type`,
in the order of the tuple
`pt, jit, onnx, xml, engine, coreml, saved_model, pb, tflite, edgetpu, tfjs`. -/
structure Flags where
  pt : Bool
  jit : Bool
  onnx : Bool
  xml : Bool
  engine : Bool
  coreml : Bool
  saved_model : Bool
  pb : Bool
  tflite : Bool
  edgetpu : Bool
  tfjs : Bool
deriving DecidableEq, Repr

/-- Modelled from the spec: the `Suffix` column of `export_formats()` from
`export.py`, which is not under `src/`.  The spec lists the deployment
runtimes ("ONNX/TensorRT/CoreML/TFLite/OpenVINO — thin wrappers over vendor
runtimes", plus PyTorch/TorchScript/TensorFlow formats named in the source's
usage comment at `DetectMultiBackend.__init__`); these are the standard
YOLOv5 export suffixes, one per backend, in the order consumed by
`model_type`. -/
def exportSuffixes : List String :=
  [".pt", ".torchscript", ".onnx", "_openvino_model", ".engine", ".mlmodel",
   "_saved_model", ".pb", ".tflite", "_edgetpu.tflite", "_web_model"]

/-- `DetectMultiBackend.model_type` (lines 519-529): membership of each
export suffix (plus the appended `'.xml'`) in `Path(p).name`, then
`xml |= xml2` and `tflite &= not edgetpu`. -/
def model_type (p : String) : Flags :=
  let name := pathName p
  let mem : String → Bool := fun s => strOccurs s name
  let pt := mem ".pt"
  let jit := mem ".torchscript"
  let onnx := mem ".onnx"
  let xml := mem "_openvino_model"
  let engine := mem ".engine"
  let coreml := mem ".mlmodel"
  let saved_model := mem "_saved_model"
  let pb := mem ".pb"
  let tflite := mem ".tflite"
  let edgetpu := mem "_edgetpu.tflite"
  let tfjs := mem "_web_model"
  let xml2 := mem ".xml"
  { pt := pt, jit := jit, onnx := onnx, xml := xml || xml2, engine := engine,
    coreml := coreml, saved_model := saved_model, pb := pb,
    tflite := tflite && !edgetpu, edgetpu := edgetpu, tfjs := tfjs }

/-! ## `DetectMultiBackend.__init__` backend dispatch (lines 348-451) -/

/-- Which loader ran during `DetectMultiBackend.__init__`.  `nothingLoaded`
models the fall-through when no branch condition holds (no loader branch
executes and `self.__dict__.update(locals())` still runs). -/
inductive Loaded where
  | pytorch
  | torchscript
  | opencvdnn
  | onnxruntime
  | openvino
  | tensorrt
  | coremlTools
  | tfSavedModel
  | tfGraphDef
  | tfLiteOrEdge
  | nothingLoaded
deriving DecidableEq, Repr

/-- The exception message raised for TF.js weights (line 450). -/
def tfjsMsg : String := "ERROR: YOLOv5 TF.js inference is not supported"

instance instDecEqExcept {ε α : Type} [DecidableEq ε] [DecidableEq α] :
    DecidableEq (Except ε α)
  | Except.error x, Except.error y =>
    if h : x = y then isTrue (h ▸ rfl) else isFalse (fun hc => h (Except.error.inj hc))
  | Except.error _, Except.ok _ => isFalse (fun hc => Except.noConfusion hc)
  | Except.ok _, Except.error _ => isFalse (fun hc => Except.noConfusion hc)
  | Except.ok x, Except.ok y =>
    if h : x = y then isTrue (h ▸ rfl) else isFalse (fun hc => h (Except.ok.inj hc))

/-- The `if pt: ... elif jit: ... elif dnn: ... else: (if saved_model ...
elif tfjs: raise ...)` loader dispatch of `DetectMultiBackend.__init__`,
as a function of the backend flags and the `dnn` constructor argument.
Loading succeeds with the selected loader, except for TF.js which raises. -/
def dmbInitDispatch (f : Flags) (dnn : Bool) : Except String Loaded :=
  if f.pt then .ok .pytorch
  else if f.jit then .ok .torchscript
  else if dnn then .ok .opencvdnn
  else if f.onnx then .ok .onnxruntime
  else if f.xml then .ok .openvino
  else if f.engine then .ok .tensorrt
  else if f.coreml then .ok .coremlTools
  else if f.saved_model then .ok .tfSavedModel
  else if f.pb then .ok .tfGraphDef
  else if f.tflite || f.edgetpu then .ok .tfLiteOrEdge
  else if f.tfjs then .error tfjsMsg
  else .ok .nothingLoaded

/-! ## `Contract` / `Expand` (lines 283-308)

`torch.view` on contiguous row-major storage splits and merges adjacent
dimensions; a split dimension `m*n → (m, n)` has the second component
fastest.  We fuse view → permute → contiguous-view into one index
computation on shape-indexed tensors. -/

/-- A 4-D tensor of shape `(b, c, h, w)` as an index function. -/
def T4 (b c h w : ℕ) (α : Type) := Fin b → Fin c → Fin h → Fin w → α

/-- Row-major merge of an index pair (second component fastest). -/
def finMerge {m n : ℕ} (a : Fin m) (b : Fin n) : Fin (m * n) :=
  ⟨a.val * n + b.val, by
    calc a.val * n + b.val < a.val * n + n := by omega
    _ = (a.val + 1) * n := by ring
    _ ≤ m * n := Nat.mul_le_mul_right n a.isLt⟩

/-- Coarse component of a row-major split. -/
def finFst {m n : ℕ} (i : Fin (m * n)) : Fin m :=
  ⟨i.val / n, by
    rcases Nat.eq_zero_or_pos n with hn | hn
    · exact absurd i.isLt (by simp [hn])
    · exact (Nat.div_lt_iff_lt_mul hn).mpr (by
        have := i.isLt; omega)⟩

/-- Fine component of a row-major split. -/
def finSnd {m n : ℕ} (i : Fin (m * n)) : Fin n :=
  ⟨i.val % n, by
    rcases Nat.eq_zero_or_pos n with hn | hn
    · exact absurd i.isLt (by simp [hn])
    · exact Nat.mod_lt _ hn⟩

theorem finFst_merge {m n : ℕ} (a : Fin m) (b : Fin n) :
    finFst (finMerge a b) = a := by
  rcases a with ⟨a, ha⟩; rcases b with ⟨b, hb⟩
  simp only [finMerge, finFst, Fin.mk.injEq]
  have hn : 0 < n := by omega
  rw [Nat.mul_comm a n, Nat.mul_add_div hn, Nat.div_eq_of_lt hb]
  omega

theorem finSnd_merge {m n : ℕ} (a : Fin m) (b : Fin n) :
    finSnd (finMerge a b) = b := by
  rcases a with ⟨a, ha⟩; rcases b with ⟨b, hb⟩
  simp only [finMerge, finSnd, Fin.mk.injEq]
  rw [Nat.mul_comm a n, Nat.mul_add_mod, Nat.mod_eq_of_lt hb]

theorem finMerge_fst_snd {m n : ℕ} (i : Fin (m * n)) :
    finMerge (finFst i) (finSnd i) = i := by
  rcases i with ⟨i, hi⟩
  simp only [finMerge, finFst, finSnd, Fin.mk.injEq]
  have h := Nat.div_add_mod i n
  rw [Nat.mul_comm] at h
  omega

/-- `Contract.forward` (lines 289-294) with gain `s`:
`view(b, c, h//s, s, w//s, s)` → `permute(0, 3, 5, 1, 2, 4)` →
`view(b, c*s*s, h//s, w//s)`.  Output position `(n, k, i, j)` with
`k = (p, q, cc)` row-major reads the input at `(n, cc, i*s+p, j*s+q)`. -/
def contract (s : ℕ) {b c hh ww : ℕ} {α : Type}
    (x : T4 b c (hh * s) (ww * s) α) : T4 b (s * s * c) hh ww α :=
  fun n k i j =>
    let pq : Fin (s * s) := finFst k
    let cc : Fin c := finSnd k
    x n cc (finMerge i (finFst pq)) (finMerge j (finSnd pq))

/-- `Expand.forward` (lines 303-308) with gain `s`:
`view(b, s, s, c//s**2, h, w)` → `permute(0, 3, 4, 1, 5, 2)` →
`view(b, c//s**2, h*s, w*s)`.  Output position `(n, cc, a, bx)` with
`a = (i, p)` and `bx = (j, q)` row-major reads the input at
`(n, (p, q, cc) row-major, i, j)`. -/
def expand (s : ℕ) {b c hh ww : ℕ} {α : Type}
    (y : T4 b (s * s * c) hh ww α) : T4 b c (hh * s) (ww * s) α :=
  fun n cc a bx =>
    y n (finMerge (finMerge (finSnd a) (finSnd bx)) cc) (finFst a) (finFst bx)

/-! ## CoAtNet (lines 1303-1399) -/

/-- The three block constructors a CoAtNet stage can be built from. -/
inductive BKind where
  | conv3x3
  | mbconv
  | transf
deriving DecidableEq, Repr

/-- A constructed block: which constructor, its channel arguments, and
whether it was built with `downsample=True`. -/
structure BSpec where
  kind : BKind
  inp : ℕ
  oup : ℕ
  downsample : Bool
deriving DecidableEq, Repr

/-- `CoAtNet._make_layer` (lines 1362-1369): block `i = 0` is
`block(inp, oup, image_size, downsample=True)`, every later block is
`block(oup, oup, image_size)` (so `downsample=False`). -/
def make_layer (k : BKind) (inp oup depth : ℕ) : List BSpec :=
  (List.range depth).map
    (fun i => if i = 0 then ⟨k, inp, oup, true⟩ else ⟨k, oup, oup, false⟩)

/-- The `block = {'C': MBConv, 'T': Transformer}` dict lookup (line 1335);
`none` models a `KeyError` for any other character. -/
def blockOfChar (c : Char) : Option BKind :=
  if c = 'C' then some .mbconv else if c = 'T' then some .transf else none

/-- The default `block_types` argument of `CoAtNet.__init__`. -/
def defaultBlockTypes : List Char := ['C', 'C', 'T', 'T']

/-- `CoAtNet.__init__` (lines 1331-1349): the five stages `s0`..`s4`.
`s0` uses `conv_3x3_bn`; `s1`..`s4` use `block[block_types[i]]`.
Out-of-range list indices are read with a default (Python would raise). -/
def coatnetStages (inC : ℕ) (nb ch : List ℕ) (bt : List Char) :
    Option (List (List BSpec)) := do
  let k1 ← blockOfChar (bt.getD 0 ' ')
  let k2 ← blockOfChar (bt.getD 1 ' ')
  let k3 ← blockOfChar (bt.getD 2 ' ')
  let k4 ← blockOfChar (bt.getD 3 ' ')
  pure [make_layer .conv3x3 inC (ch.getD 0 0) (nb.getD 0 0),
        make_layer k1 (ch.getD 0 0) (ch.getD 1 0) (nb.getD 1 0),
        make_layer k2 (ch.getD 1 0) (ch.getD 2 0) (nb.getD 2 0),
        make_layer k3 (ch.getD 2 0) (ch.getD 3 0) (nb.getD 3 0),
        make_layer k4 (ch.getD 3 0) (ch.getD 4 0) (nb.getD 4 0)]

/-- Spatial resolution after one block: a `downsample` block halves it
(stride-2 conv in `conv_3x3_bn`, line 1111; stride-2 max-pool branches in
`MBConv.forward`, lines 1170-1206, and `Transformer.forward`,
lines 1275-1296); any other block preserves it. -/
def blockRes (bs : BSpec) (r : ℕ) : ℕ := if bs.downsample then r / 2 else r

/-- Resolution after a whole stage. -/
def stageRes (st : List BSpec) (r : ℕ) : ℕ := st.foldl (fun r bs => blockRes bs r) r

/-- Resolution after a list of stages (`CoAtNet.forward` applies
`s0`..`s4` in order, lines 1351-1356, before `pool` and `fc`). -/
def stagesRes (sts : List (List BSpec)) (r : ℕ) : ℕ :=
  sts.foldl (fun r st => stageRes st r) r

/-! ## `SPP` / `SPPF` (lines 208-239)

Stride-1 max pooling with `padding = k//2` over a channel, with `⊥` as the
-∞ padding value of `nn.MaxPool2d`.  `cv1`/`cv2` are `Conv` blocks whose
weights both layers share in the claim, so they are abstracted as
functions on channel lists. -/

/-- A feature-map channel of height `h` and width `w`; values live in
`WithBot ℚ` so that the max-pool padding identity `⊥` is available. -/
def Chan (h w : ℕ) := Fin h → Fin w → WithBot ℚ

/-- Read a channel at integer coordinates, `⊥` outside the valid region
(the -∞ padding of `nn.MaxPool2d(·, stride=1, padding=·)`). -/
def cell {h w : ℕ} (x : Chan h w) (p q : ℤ) : WithBot ℚ :=
  if hp : 0 ≤ p ∧ p < (h : ℤ) ∧ 0 ≤ q ∧ q < (w : ℤ) then
    x ⟨p.toNat, by omega⟩ ⟨q.toNat, by omega⟩
  else ⊥

/-- Stride-1 max pooling whose square window extends `a` cells up/left and
`bx` cells down/right of each output position. -/
def pool (a bx : ℕ) {h w : ℕ} (x : Chan h w) : Chan h w :=
  fun i j =>
    ((Finset.Icc ((i.val : ℤ) - a) ((i.val : ℤ) + bx)) ×ˢ
      (Finset.Icc ((j.val : ℤ) - a) ((j.val : ℤ) + bx))).sup
      (fun pq => cell x pq.1 pq.2)

/-- `nn.MaxPool2d(kernel_size=k, stride=1, padding=k//2)`: window
`[i - k//2, i + (k-1) - k//2]` in each coordinate. -/
def poolK (k : ℕ) {h w : ℕ} (x : Chan h w) : Chan h w :=
  pool (k / 2) (k - 1 - k / 2) x

/-- Reading a pooled channel at valid integer coordinates is the sup of
`cell x` over the window centred there. -/
theorem pool_cell_eq {h w : ℕ} (a b : ℕ) (x : Chan h w) (p q : ℤ)
    (hv : 0 ≤ p ∧ p < (h : ℤ) ∧ 0 ≤ q ∧ q < (w : ℤ)) :
    cell (pool a b x) p q =
      ((Finset.Icc (p - a) (p + b)) ×ˢ (Finset.Icc (q - a) (q + b))).sup
        (fun pq => cell x pq.1 pq.2) := by
  rw [cell, dif_pos hv]
  show ((Finset.Icc (((p.toNat : ℕ) : ℤ) - a) (((p.toNat : ℕ) : ℤ) + b)) ×ˢ
      (Finset.Icc (((q.toNat : ℕ) : ℤ) - a) (((q.toNat : ℕ) : ℤ) + b))).sup
      (fun pq => cell x pq.1 pq.2) = _
  rw [Int.toNat_of_nonneg hv.1, Int.toNat_of_nonneg hv.2.2.1]

/-- `Finset.le_sup` specialised to an explicitly given function on pairs,
so the function argument can be passed positionally. -/
theorem le_sup_pair {α : Type} [SemilatticeSup α] [OrderBot α]
    (s : Finset (ℤ × ℤ)) (f : ℤ × ℤ → α) (u v : ℤ) (hm : (u, v) ∈ s) :
    f (u, v) ≤ s.sup f :=
  Finset.le_sup hm

/-- Cascading two stride-1 max pools adds their window extents: the window
of the composite at a valid position is exactly the Minkowski sum of the
two windows, clipped to the valid region. -/
theorem pool_pool (a1 b1 a2 b2 : ℕ) {h w : ℕ} (x : Chan h w) :
    pool a1 b1 (pool a2 b2 x) = pool (a1 + a2) (b1 + b2) x := by
  funext i j
  have hi := i.isLt
  have hj := j.isLt
  apply le_antisymm
  · apply Finset.sup_le
    rintro ⟨p, q⟩ hmem
    rw [Finset.mem_product, Finset.mem_Icc, Finset.mem_Icc] at hmem
    obtain ⟨⟨hp1, hp2⟩, hq1, hq2⟩ := hmem
    by_cases hv : 0 ≤ p ∧ p < (h : ℤ) ∧ 0 ≤ q ∧ q < (w : ℤ)
    · rw [pool_cell_eq a2 b2 x p q hv]
      apply Finset.sup_le
      rintro ⟨u, v⟩ hmem2
      rw [Finset.mem_product, Finset.mem_Icc, Finset.mem_Icc] at hmem2
      obtain ⟨⟨hu1, hu2⟩, hv1, hv2⟩ := hmem2
      have hmem3 : ((u, v) : ℤ × ℤ) ∈
          (Finset.Icc ((i.val : ℤ) - (a1 + a2)) ((i.val : ℤ) + (b1 + b2)) ×ˢ
            Finset.Icc ((j.val : ℤ) - (a1 + a2)) ((j.val : ℤ) + (b1 + b2))) := by
        rw [Finset.mem_product, Finset.mem_Icc, Finset.mem_Icc]
        omega
      exact le_sup_pair _ (fun pq => cell x pq.1 pq.2) u v hmem3
    · have hbot : cell (pool a2 b2 x) p q = (⊥ : WithBot ℚ) := dif_neg hv
      rw [hbot]
      exact bot_le
  · apply Finset.sup_le
    rintro ⟨u, v⟩ hmem
    rw [Finset.mem_product, Finset.mem_Icc, Finset.mem_Icc] at hmem
    obtain ⟨⟨hu1, hu2⟩, hv1, hv2⟩ := hmem
    by_cases hv : 0 ≤ u ∧ u < (h : ℤ) ∧ 0 ≤ v ∧ v < (w : ℤ)
    · set p : ℤ := max ((i.val : ℤ) - a1) (min ((i.val : ℤ) + b1) u) with hp
      set q : ℤ := max ((j.val : ℤ) - a1) (min ((j.val : ℤ) + b1) v) with hq
      have hpv : 0 ≤ p ∧ p < (h : ℤ) ∧ 0 ≤ q ∧ q < (w : ℤ) := by omega
      have step1 : cell x u v ≤ cell (pool a2 b2 x) p q := by
        rw [pool_cell_eq a2 b2 x p q hpv]
        have hmem3 : ((u, v) : ℤ × ℤ) ∈
            (Finset.Icc (p - a2) (p + b2) ×ˢ Finset.Icc (q - a2) (q + b2)) := by
          rw [Finset.mem_product, Finset.mem_Icc, Finset.mem_Icc]
          omega
        exact le_sup_pair _ (fun pq => cell x pq.1 pq.2) u v hmem3
      refine step1.trans ?_
      have hmem4 : ((p, q) : ℤ × ℤ) ∈
          (Finset.Icc ((i.val : ℤ) - a1) ((i.val : ℤ) + b1) ×ˢ
            Finset.Icc ((j.val : ℤ) - a1) ((j.val : ℤ) + b1)) := by
        rw [Finset.mem_product, Finset.mem_Icc, Finset.mem_Icc]
        omega
      exact le_sup_pair _ (fun pq => cell (pool a2 b2 x) pq.1 pq.2) p q hmem4
    · have hbot : cell x u v = (⊥ : WithBot ℚ) := dif_neg hv
      rw [hbot]
      exact bot_le

/-- `SPP.forward` (lines 217-221): `x = cv1(x)`, then
`cv2(torch.cat([x] + [m(x) for m in self.m], 1))` where `self.m` holds one
`nn.MaxPool2d(k, stride=1, padding=k//2)` per entry of `k`. -/
def SPP_forward {h w : ℕ} (cv1 cv2 : List (Chan h w) → List (Chan h w))
    (ks : List ℕ) (x : List (Chan h w)) : List (Chan h w) :=
  let y := cv1 x
  cv2 (y ++ (ks.map (fun k => y.map (poolK k))).flatten)

/-- `SPPF.forward` (lines 233-239): `x = cv1(x); y1 = m(x); y2 = m(y1);`
then `cv2(torch.cat((x, y1, y2, m(y2)), 1))` with a single
`nn.MaxPool2d(k, stride=1, padding=k//2)` as `m`. -/
def SPPF_forward {h w : ℕ} (cv1 cv2 : List (Chan h w) → List (Chan h w))
    (k : ℕ) (x : List (Chan h w)) : List (Chan h w) :=
  let y := cv1 x
  let y1 := y.map (poolK k)
  let y2 := y1.map (poolK k)
  cv2 (y ++ y1 ++ y2 ++ y2.map (poolK k))

/-! ## Channel attention modules (`SE` lines 935-951, `ECA` lines 991-1018,
`ChannelAttention` lines 747-775, its use in `CBAMBottleneck.forward`
line 814)

Float arithmetic is embedded as exact real arithmetic. -/

/-- `nn.Sigmoid`. -/
noncomputable def sigmoid (t : ℝ) : ℝ := 1 / (1 + Real.exp (-t))

theorem sigmoid_mem_Ioo (t : ℝ) : sigmoid t ∈ Set.Ioo (0 : ℝ) 1 := by
  have he := Real.exp_pos (-t)
  constructor
  · exact div_pos one_pos (by linarith)
  · rw [sigmoid, div_lt_one (by linarith)]
    linarith

/-- `nn.AdaptiveAvgPool2d(1)` followed by `.view(b, c)`. -/
noncomputable def avgpool2 {b c h w : ℕ} (x : T4 b c h w ℝ) :
    Fin b → Fin c → ℝ :=
  fun n i => (∑ a : Fin h, ∑ e : Fin w, x n i a e) / ((h : ℝ) * w)

/-- `nn.AdaptiveMaxPool2d(1)` followed by `.view(b, c)` (spatial
dimensions must be nonempty, as PyTorch requires). -/
noncomputable def maxpool2 {b c h w : ℕ} (x : T4 b c (h + 1) (w + 1) ℝ) :
    Fin b → Fin c → ℝ :=
  fun n i =>
    Finset.univ.sup' Finset.univ_nonempty
      (fun pr : Fin (h + 1) × Fin (w + 1) => x n i pr.1 pr.2)

/-- `nn.Linear(cIn, cOut, bias=False)`; a 1×1 `nn.Conv2d(cIn, cOut, 1,
bias=False)` acting on a (b, cIn, 1, 1) tensor is the same map. -/
noncomputable def linearNB {cIn cOut : ℕ} (wt : Fin cOut → Fin cIn → ℝ)
    (v : Fin cIn → ℝ) : Fin cOut → ℝ :=
  fun o => ∑ i, wt o i * v i

/-- `nn.ReLU`. -/
def relu (t : ℝ) : ℝ := max 0 t

/-- Weights of `SE.__init__` (lines 936-942): `l1 = nn.Linear(c1, c1 // r,
bias=False)`, `l2 = nn.Linear(c1 // r, c1, bias=False)`. -/
structure SEParams (c r : ℕ) where
  w1 : Fin (c / r) → Fin c → ℝ
  w2 : Fin c → Fin (c / r) → ℝ

/-- `SE.forward` (lines 943-951): global average pool, `l1`, ReLU, `l2`,
sigmoid, `view(b, c, 1, 1)`, `x * y.expand_as(x)`. -/
noncomputable def SE_forward {b c h w r : ℕ} (p : SEParams c r)
    (x : T4 b c h w ℝ) : T4 b c h w ℝ :=
  fun n i a e =>
    let y0 := avgpool2 x n
    let y1 := linearNB p.w1 y0
    let y2 := linearNB p.w2 (fun j => relu (y1 j))
    x n i a e * sigmoid (y2 i)

/-- Kernel of the `nn.Conv1d(1, 1, kernel_size=k_size,
padding=(k_size - 1) // 2, bias=False)` of `ECA.__init__` (line 1001). -/
structure ECAParams (k : ℕ) where
  kw : Fin k → ℝ

/-- Zero-padded access to a length-`c` sequence (`nn.Conv1d` padding). -/
def pad1 {c : ℕ} (v : Fin c → ℝ) (t : ℤ) : ℝ :=
  if hv : 0 ≤ t ∧ t < (c : ℤ) then v ⟨t.toNat, by omega⟩ else 0

/-- `ECA.forward` (lines 1004-1018): global average pool, the 1-D
convolution run along the channel axis (the squeeze/transpose pair), then
sigmoid and broadcast multiply. -/
noncomputable def ECA_forward {b c h w k : ℕ} (p : ECAParams k)
    (x : T4 b c h w ℝ) : T4 b c h w ℝ :=
  fun n i a e =>
    let y0 := avgpool2 x n
    let z : Fin c → ℝ := fun t =>
      ∑ d : Fin k, p.kw d * pad1 y0 ((t.val : ℤ) + d.val - ((k - 1) / 2 : ℕ))
    x n i a e * sigmoid (z i)

/-- Weights of `ChannelAttention.__init__` (lines 748-767): the shared
1×1-conv MLP `f1`/`f2` (`bias=False`). -/
structure CAParams (c r : ℕ) where
  f1 : Fin (c / r) → Fin c → ℝ
  f2 : Fin c → Fin (c / r) → ℝ

/-- `ChannelAttention.forward` (lines 769-775): sigmoid of the shared MLP
applied to the global average pool plus the same MLP applied to the
global max pool; the result is the (b, c, 1, 1) weight tensor (it is not
yet multiplied into the input). -/
noncomputable def ChannelAttention_forward {b c h w r : ℕ} (p : CAParams c r)
    (x : T4 b c (h + 1) (w + 1) ℝ) : Fin b → Fin c → ℝ :=
  fun n i =>
    let avg_out := linearNB p.f2 (fun j => relu (linearNB p.f1 (avgpool2 x n) j))
    let max_out := linearNB p.f2 (fun j => relu (linearNB p.f1 (maxpool2 x n) j))
    sigmoid (avg_out i + max_out i)

/-- The channel-attention reweighting step of `CBAMBottleneck.forward`
(line 814): `out = self.channel_attention(x1) * x1`. -/
noncomputable def cbamChannelReweight {b c h w r : ℕ} (p : CAParams c r)
    (x1 : T4 b c (h + 1) (w + 1) ℝ) : T4 b c (h + 1) (w + 1) ℝ :=
  fun n i a e => ChannelAttention_forward p x1 n i * x1 n i a e

/-! ## `DetectMultiBackend.forward` (lines 453-509)

Vendor-SDK calls are fields of an environment record; the wrapper's own
control flow (the if/elif dispatch, the layout conversions, the final
numpy→torch normalisation and the `val` pairing) is translated directly. -/

/-- A torch tensor: device id, shape, row-major data. -/
structure TorchT where
  dev : ℕ
  shape : List ℕ
  dat : ℕ → ℚ

/-- A numpy array: shape and row-major data. -/
structure NpT where
  shape : List ℕ
  dat : ℕ → ℚ

/-- `im.cpu().numpy()`. -/
def toNumpy (t : TorchT) : NpT := ⟨t.shape, t.dat⟩

/-- `im.permute(0, 2, 3, 1)` on a contiguous row-major BCHW tensor
(torch BCHW to numpy BHWC, lines 476 and 488). -/
def permute0231 (t : TorchT) : TorchT :=
  match t.shape with
  | [b, c, h, w] =>
    { dev := t.dev, shape := [b, h, w, c],
      dat := fun idx =>
        let n := idx / (h * w * c)
        let r := idx % (h * w * c)
        let i := r / (w * c)
        let r2 := r % (w * c)
        let j := r2 / c
        let k := r2 % c
        t.dat (((n * c + k) * h + i) * w + j) }
  | _ => t

/-- A runtime value produced by a backend branch. -/
inductive YVal where
  | torch (t : TorchT)
  | numpy (a : NpT)

/-- `y[..., :4] *= [w, h, w, h]` (line 505): scale the first four entries
of the last axis from normalised xywh to pixels. -/
def scaleXYWH (w h : ℕ) (a : NpT) : NpT :=
  { shape := a.shape,
    dat := fun idx =>
      let ld := a.shape.getLastD 1
      let r := idx % ld
      if r = 0 then a.dat idx * w
      else if r = 1 then a.dat idx * h
      else if r = 2 then a.dat idx * w
      else if r = 3 then a.dat idx * h
      else a.dat idx }

/-- The dict returned by CoreML `model.predict` (line 479): either it has
a `confidence` key, or it maps `var_###` names to outputs. -/
inductive CoremlOut where
  | withConfidence (coordinates confidence : NpT)
  | varDict (vals : List (ℕ × NpT))

/-- `y[k]` for the largest `var_###` key (lines 485-486). -/
def maxVar (vals : List (ℕ × NpT)) : NpT :=
  (vals.foldl (fun acc p => if acc.1 ≤ p.1 then p else acc)
    (0, ⟨[], fun _ => 0⟩)).2

/-- The attributes `DetectMultiBackend.__init__` stores for `forward`:
one synchronous entry point per vendor SDK plus the scalar attributes the
branches read.  `coremlDecode` abstracts lines 481-483 (`xywh2xyxy` of
`utils.general` and the numpy argmax/concatenate are framework calls). -/
structure DmbEnv where
  device : ℕ
  ptModel : TorchT → Bool → Bool → TorchT
  jitModel : TorchT → TorchT
  dnnNet : NpT → NpT
  onnxSession : NpT → NpT
  xmlNet : NpT → NpT
  engineShape : List ℕ
  engineExec : TorchT → TorchT
  coremlPredict : NpT → CoremlOut
  coremlDecode : NpT → NpT → ℕ → ℕ → NpT
  tfSaved : NpT → NpT
  tfFrozen : NpT → NpT
  tfliteInvoke : NpT → NpT
  int8 : Bool
  inScale : ℚ
  inZero : ℚ
  outScale : ℚ
  outZero : ℚ

/-- Which vendor inference call a `forward` executed. -/
inductive Call where
  | ptC
  | jitC
  | dnnC
  | onnxC
  | xmlC
  | engineC
  | coremlC
  | savedC
  | pbC
  | tfliteC
deriving DecidableEq, Repr

/-- The body of `DetectMultiBackend.forward` up to line 505: the if/elif
backend dispatch.  Returns the raw `y` of the selected branch together
with the list of vendor calls made (in order); the TensorRT branch models
the `assert im.shape == self.bindings['images'].shape` of line 471. -/
def dmbForwardRaw (env : DmbEnv) (f : Flags) (dnn augment visualize : Bool)
    (im : TorchT) : Except String (YVal × List Call) :=
  if f.pt then .ok (.torch (env.ptModel im augment visualize), [.ptC])
  else if f.jit then .ok (.torch (env.jitModel im), [.jitC])
  else if dnn then .ok (.numpy (env.dnnNet (toNumpy im)), [.dnnC])
  else if f.onnx then .ok (.numpy (env.onnxSession (toNumpy im)), [.onnxC])
  else if f.xml then .ok (.numpy (env.xmlNet (toNumpy im)), [.xmlC])
  else if f.engine then
    if im.shape = env.engineShape then .ok (.torch (env.engineExec im), [.engineC])
    else .error "AssertionError: im.shape does not match bindings shape"
  else if f.coreml then
    let imn := toNumpy (permute0231 im)
    let pil : NpT := { shape := imn.shape.drop 1, dat := fun idx => imn.dat idx * 255 }
    let y := match env.coremlPredict pil with
      | .withConfidence coords conf =>
        env.coremlDecode coords conf (im.shape.getD 3 0) (im.shape.getD 2 0)
      | .varDict vals => maxVar vals
    .ok (.numpy y, [.coremlC])
  else if f.saved_model then
    .ok (.numpy (scaleXYWH (im.shape.getD 3 0) (im.shape.getD 2 0)
      (env.tfSaved (toNumpy (permute0231 im)))), [.savedC])
  else if f.pb then
    .ok (.numpy (scaleXYWH (im.shape.getD 3 0) (im.shape.getD 2 0)
      (env.tfFrozen (toNumpy (permute0231 im)))), [.pbC])
  else
    let imn := toNumpy (permute0231 im)
    let im2 : NpT := if env.int8 then
      { shape := imn.shape, dat := fun i => imn.dat i / env.inScale + env.inZero }
      else imn
    let y := env.tfliteInvoke im2
    let y2 : NpT := if env.int8 then
      { shape := y.shape, dat := fun i => (y.dat i - env.outZero) * env.outScale }
      else y
    .ok (.numpy (scaleXYWH (im.shape.getD 3 0) (im.shape.getD 2 0) y2), [.tfliteC])

/-- The return value of `forward`: `(y, [])` when `val=True`, `y` alone
otherwise (line 509). -/
inductive FwdRet where
  | pair (y : YVal) (extra : List YVal)
  | single (y : YVal)

/-- Lines 507-509: `if isinstance(y, np.ndarray): y = torch.tensor(y,
device=self.device)`, then `return (y, []) if val else y`. -/
def mkRet (val : Bool) (dev : ℕ) (y : YVal) : FwdRet :=
  let y2 : YVal := match y with
    | .numpy a => .torch ⟨dev, a.shape, a.dat⟩
    | .torch t => .torch t
  if val then .pair y2 [] else .single y2

/-- `DetectMultiBackend.forward` (lines 453-509). -/
def dmbForward (env : DmbEnv) (f : Flags) (dnn augment visualize val : Bool)
    (im : TorchT) : Except String (FwdRet × List Call) :=
  (dmbForwardRaw env f dnn augment visualize im).map
    (fun yl => (mkRet val env.device yl.1, yl.2))

/-- The backend selected by the claim's fixed priority order over the
boolean flags: PyTorch, TorchScript, OpenCV DNN, ONNX Runtime, OpenVINO,
TensorRT, CoreML, then TensorFlow (SavedModel, GraphDef, Lite/EdgeTPU). -/
def priorityCall (f : Flags) (dnn : Bool) : Call :=
  if f.pt then .ptC
  else if f.jit then .jitC
  else if dnn then .dnnC
  else if f.onnx then .onnxC
  else if f.xml then .xmlC
  else if f.engine then .engineC
  else if f.coreml then .coremlC
  else if f.saved_model then .savedC
  else if f.pb then .pbC
  else .tfliteC

/-! ## `AutoShape` (lines 532-621) and `Detections` (lines 624-641)

The non-tensor input path of `AutoShape.forward`.  File/HTTP loading is
I/O, so an embedded input carries the decoded pixel array alongside its
path; the util helpers missing from `src/` are modelled from the spec
where their behaviour matters and kept abstract (environment fields)
where it does not. -/

/-- A numpy image array: its shape (2-D grayscale, or 3-D HWC/CHW) and
pixel data (2-D arrays store their pixels at third index 0). -/
structure NpArr3 where
  shape : List ℕ
  pix : ℕ → ℕ → ℕ → ℚ

def npArrDefault : NpArr3 := ⟨[], fun _ _ _ => 0⟩

/-- `im.transpose((1, 2, 0))` (line 591): CHW back to HWC. -/
def transpose120 (a : NpArr3) : NpArr3 :=
  { shape := [a.shape.getD 1 0, a.shape.getD 2 0, a.shape.getD 0 0],
    pix := fun i j k => a.pix k i j }

/-- Line 592: `im[..., :3] if im.ndim == 3 else np.tile(im[..., None], 3)`. -/
def enforce3ch (a : NpArr3) : NpArr3 :=
  if a.shape.length = 3 then
    { shape := [a.shape.getD 0 0, a.shape.getD 1 0, min (a.shape.getD 2 0) 3],
      pix := a.pix }
  else
    { shape := [a.shape.getD 0 0, a.shape.getD 1 0, 3],
      pix := fun i j _ => a.pix i j 0 }

/-- One element of the `imgs` argument: a path or URI together with the
image it opens to, a PIL image with its optional `filename` attribute, or
a raw numpy array. -/
inductive ImInput where
  | file (path : String) (img : NpArr3)
  | pil (filename : Option String) (img : NpArr3)
  | arr (img : NpArr3)

/-- The carried pixel array of an input. -/
def inputImg : ImInput → NpArr3
  | .file _ img => img
  | .pil _ img => img
  | .arr img => img

/-- Lines 583-588: the name `f` recorded for image `i`
(`f'image{i}'` default; the path for files; `getattr(im, 'filename', f)
or f` for PIL images, the empty string being falsy). -/
def inputName (i : ℕ) : ImInput → String
  | .file p _ => p
  | .pil (some fn) _ => if fn = "" then "image" ++ toString i else fn
  | .pil none _ => "image" ++ toString i
  | .arr _ => "image" ++ toString i

/-- A detection row `(x1, y1, x2, y2, conf, cls)`. -/
structure Det where
  x1 : ℚ
  y1 : ℚ
  x2 : ℚ
  y2 : ℚ
  conf : ℚ
  cls : ℚ
deriving DecidableEq, Repr

/-- Modelled from the spec: `make_divisible` from `utils.general` (not in
src/): round `x` up to the nearest multiple of `divisor`, so the
inference shape is divisible by the model stride. -/
def make_divisible (x : ℚ) (divisor : ℕ) : ℕ :=
  (Int.ceil (x / divisor)).toNat * divisor

/-- Modelled from the spec: `letterbox` from `utils.dataloaders` (not in
src/), called with `auto=False` (line 599): it pads every image to
exactly the requested shape `(th, tw)` with the grey border value 114;
the OpenCV resize geometry inside the original extent is not modelled. -/
def letterbox (a : NpArr3) (t : ℕ × ℕ) : NpArr3 :=
  { shape := [t.1, t.2, a.shape.getD 2 0],
    pix := fun i j k =>
      if i < a.shape.getD 0 0 ∧ j < a.shape.getD 1 0 then a.pix i j k else 114 }

/-- A stacked batch tensor in BCHW layout, pixel values divided by 255
(lines 600-601). -/
structure Tensor4S where
  shape : List ℕ
  pix : ℕ → ℕ → ℕ → ℕ → ℚ

/-- Lines 600-601: stack the letterboxed HWC images, transpose BHWC to
BCHW, and scale `uint8` values to `[0, 1]` by dividing by 255. -/
def stackT (lbs : List NpArr3) (t : ℕ × ℕ) : Tensor4S :=
  { shape := [lbs.length, (lbs.headD npArrDefault).shape.getD 2 0, t.1, t.2],
    pix := fun b c i j => (lbs.getD b npArrDefault).pix i j c / 255 }

/-- Modelled from the spec: `non_max_suppression` from `utils.general`
(not in src/), the "post-processing step removing overlapping duplicate
detections": rows at or below the confidence threshold are dropped,
overlap suppression (driven by the IoU threshold, the optional class
filter and the agnostic/multi-label switches) is the abstract `suppress`,
and at most `max_det` rows survive per image. -/
def non_max_suppression
    (suppress : ℚ → Option (List ℕ) → Bool → Bool → List Det → List Det)
    (pred : List (List Det)) (conf_thres iou_thres : ℚ)
    (classes : Option (List ℕ)) (agnostic multi_label : Bool)
    (max_det : ℕ) : List (List Det) :=
  pred.map (fun rows =>
    (suppress iou_thres classes agnostic multi_label
      (rows.filter (fun d => conf_thres < d.conf))).take max_det)

/-- Modelled from the spec: `scale_coords` from `utils.general` (not in
src/): "rescaling of the surviving box coordinates back to each original
image shape" — undo the letterbox gain and padding
(`gain = min(from/to)`, `pad = (from - to*gain)/2`,
`coords ↦ (coords - pad)/gain`). -/
def scale_coords (fromShape : ℕ × ℕ) (d : Det) (toShape : ℕ × ℕ) : Det :=
  let gain := min ((fromShape.1 : ℚ) / toShape.1) ((fromShape.2 : ℚ) / toShape.2)
  let padw := ((fromShape.2 : ℚ) - toShape.2 * gain) / 2
  let padh := ((fromShape.1 : ℚ) - toShape.1 * gain) / 2
  { d with x1 := (d.x1 - padw) / gain, y1 := (d.y1 - padh) / gain,
           x2 := (d.x2 - padw) / gain, y2 := (d.y2 - padh) / gain }

/-- `AutoShape.conf` (line 534): NMS confidence threshold 0.25. -/
def AutoShape_conf : ℚ := 25 / 100

/-- `AutoShape.iou` (line 535): NMS IoU threshold 0.45. -/
def AutoShape_iou : ℚ := 45 / 100

/-- `AutoShape.agnostic` (line 536). -/
def AutoShape_agnostic : Bool := false

/-- `AutoShape.multi_label` (line 537). -/
def AutoShape_multi_label : Bool := false

/-- `AutoShape.classes` (line 538). -/
def AutoShape_classes : Option (List ℕ) := none

/-- `AutoShape.max_det` (line 539): maximum detections per image 1000. -/
def AutoShape_max_det : ℕ := 1000

/-- The wrapped model's attributes and the framework/util calls of
`AutoShape.forward`: `exif_transpose` re-orients a PIL image; the wrapped
model is either a `DetectMultiBackend` (whose forward returns the
prediction batch) or a plain PyTorch model (whose forward returns a
`(pred, aux)` tuple, line 610 takes `y[0]`); `suppress` is the abstract
overlap-suppression core of NMS; `clock` yields the four `time_sync()`
timestamps in call order. -/
structure AsEnv where
  stride : ℕ
  pt : Bool
  dmb : Bool
  names : List String
  exif : NpArr3 → NpArr3
  dmbModel : Tensor4S → Bool → Bool → List (List Det)
  ptModel : Tensor4S → Bool → Bool → List (List Det) × List ℚ
  suppress : ℚ → Option (List ℕ) → Bool → Bool → List Det → List Det
  clock : ℕ → ℚ

/-- `Detections.__init__` stored fields (lines 626-641; the xywh /
normalised / pandas views derive from `pred` and are not needed here). -/
structure Detections where
  imgs : List NpArr3
  pred : List (List Det)
  files : List String
  times : List ℚ
  names : List String
  s : List ℕ

/-- Lines 585-588: the decoded image (`exif_transpose` applies to images
opened from a path and to PIL inputs, not to raw arrays). -/
def decoded (env : AsEnv) (inp : ImInput) : NpArr3 :=
  match inp with
  | .file _ img => env.exif img
  | .pil _ img => env.exif img
  | .arr img => img

/-- The image part of one pre-processing loop iteration (lines 582-597):
decode, reverse a CHW layout (`im.shape[0] < 5`), enforce a 3-channel
image (the loop's index is only used for the recorded file name). -/
def processImg (env : AsEnv) (inp : ImInput) : NpArr3 :=
  let im0 := decoded env inp
  let im1 := if im0.shape.getD 0 0 < 5 then transpose120 im0 else im0
  enforce3ch im1

/-- Elementwise maximum of shape pairs (`np.array(shape1).max(0)`). -/
def pairMax (p q : ℚ × ℚ) : ℚ × ℚ := (max p.1 q.1, max p.2 q.2)

/-- Lines 593-598: per-image gained shapes `[y * g for y in s]` with
`g = size / max(s)`, reduced by the batch maximum. -/
def asShape1Max (size : ℕ) (imgs2 : List NpArr3) : ℚ × ℚ :=
  (imgs2.map (fun im =>
    let h := im.shape.getD 0 0
    let w := im.shape.getD 1 0
    let g := (size : ℚ) / (max h w : ℕ)
    ((h : ℚ) * g, (w : ℚ) * g))).foldl pairMax (0, 0)

/-- Line 598: the common inference shape — `make_divisible(x, stride)`
per coordinate for PyTorch models, the bare `size` otherwise. -/
def asTarget (env : AsEnv) (size : ℕ) (imgs2 : List NpArr3) : ℕ × ℕ :=
  let m := asShape1Max size imgs2
  if env.pt then (make_divisible m.1 env.stride, make_divisible m.2 env.stride)
  else (size, size)

/-- `AutoShape.forward` (lines 561-621) on a list of non-tensor inputs:
pre-process (decode, 3-channel HWC, letterbox to the common inference
shape, stack/transpose/scale), run the wrapped model, run NMS with the
class attributes, rescale surviving boxes to each original shape, return
a `Detections`. -/
def autoShapeForward (env : AsEnv) (size : ℕ) (inputs : List ImInput)
    (augment profile : Bool) : Detections :=
  let t0 := env.clock 0
  let imgs2 := inputs.map (processImg env)
  let files := inputs.enum.map (fun ie => withSuffixJpg (inputName ie.1 ie.2))
  let shape0 := imgs2.map (fun im => (im.shape.getD 0 0, im.shape.getD 1 0))
  let target := asTarget env size imgs2
  let x := stackT (imgs2.map (fun im => letterbox im target)) target
  let t1 := env.clock 1
  let yraw := if env.dmb then env.dmbModel x augment profile
    else (env.ptModel x augment profile).1
  let t2 := env.clock 2
  let y := non_max_suppression env.suppress yraw AutoShape_conf AutoShape_iou
    AutoShape_classes AutoShape_agnostic AutoShape_multi_label AutoShape_max_det
  let pred := (y.zip shape0).map (fun p => p.1.map (fun d => scale_coords target d p.2))
  let t3 := env.clock 3
  { imgs := imgs2, pred := pred, files := files, times := [t0, t1, t2, t3],
    names := env.names, s := x.shape }

/-- The stacked inference tensor of a forward call: every converted image
letterboxed to the common inference shape, stacked BCHW, scaled by 255. -/
def asTensor (env : AsEnv) (size : ℕ) (inputs : List ImInput) : Tensor4S :=
  let imgs2 := inputs.map (processImg env)
  let target := asTarget env size imgs2
  stackT (imgs2.map (fun im => letterbox im target)) target

/-- Input shapes on which the pre-processing loop is well defined: a 2-D
grayscale image, an HWC image with at least three channels, or a CHW
image with exactly three channels (height ≥ 5 keeps an HWC image out of
the `im.shape[0] < 5` transpose branch, as for any real photograph). -/
def goodShape (s : List ℕ) : Prop :=
  (s.length = 2 ∧ 5 ≤ s.getD 0 0) ∨
  (s.length = 3 ∧ 5 ≤ s.getD 0 0 ∧ 3 ≤ s.getD 2 0) ∨
  (s.length = 3 ∧ s.getD 0 0 = 3 ∧ 5 ≤ s.getD 1 0)

instance (s : List ℕ) : Decidable (goodShape s) := by
  unfold goodShape; infer_instance

/-! ## Theorems -/

/-- C3: `DetectMultiBackend.model_type` maps a weights-path string to the
eleven backend flags by suffix membership in the file name: each flag is
true iff its export suffix occurs in `Path(p).name`, `xml` is also true
for `'.xml'` paths alongside `'_openvino_model'` ones, `tflite` is forced
false whenever `edgetpu` is true, and a `'*_edgetpu.tflite'` path yields
`edgetpu=true, tflite=false`. -/
theorem model_type_suffix_membership :
    (∀ p : String,
      (model_type p).pt = strOccurs ".pt" (pathName p) ∧
      (model_type p).jit = strOccurs ".torchscript" (pathName p) ∧
      (model_type p).onnx = strOccurs ".onnx" (pathName p) ∧
      (model_type p).xml =
        (strOccurs "_openvino_model" (pathName p) || strOccurs ".xml" (pathName p)) ∧
      (model_type p).engine = strOccurs ".engine" (pathName p) ∧
      (model_type p).coreml = strOccurs ".mlmodel" (pathName p) ∧
      (model_type p).saved_model = strOccurs "_saved_model" (pathName p) ∧
      (model_type p).pb = strOccurs ".pb" (pathName p) ∧
      (model_type p).tflite =
        (strOccurs ".tflite" (pathName p) && !strOccurs "_edgetpu.tflite" (pathName p)) ∧
      (model_type p).edgetpu = strOccurs "_edgetpu.tflite" (pathName p) ∧
      (model_type p).tfjs = strOccurs "_web_model" (pathName p) ∧
      ((model_type p).edgetpu = true → (model_type p).tflite = false)) ∧
    model_type "yolov5s_edgetpu.tflite" =
      ⟨false, false, false, false, false, false, false, false, false, true, false⟩ := by
  constructor
  · intro p
    refine ⟨rfl, rfl, rfl, rfl, rfl, rfl, rfl, rfl, rfl, rfl, rfl, ?_⟩
    intro h
    have e : strOccurs "_edgetpu.tflite" (pathName p) = true := h
    show (strOccurs ".tflite" (pathName p) && !strOccurs "_edgetpu.tflite" (pathName p)) = false
    rw [e]
    simp
  · decide

/-- Witness for C3: on the concrete path `yolov5s_edgetpu.tflite` the
`edgetpu → ¬tflite` implication fires. -/
theorem model_type_suffix_membership_witness :
    (model_type "yolov5s_edgetpu.tflite").tflite = false :=
  (model_type_suffix_membership.1
    "yolov5s_edgetpu.tflite").2.2.2.2.2.2.2.2.2.2.2 (by decide)

/-- C10: `DetectMultiBackend.__init__` raises
`'ERROR: YOLOv5 TF.js inference is not supported'` exactly when the
flags mark a TF.js model and nothing else is selected (every other flag
state reaches a loader, so TF.js is the only backend in `model_type`'s
flag tuple with no branch); in particular a `'*_web_model'` path raises. -/
theorem tfjs_init_raises :
    (∀ (f : Flags) (dnn : Bool),
      dmbInitDispatch f dnn = .error tfjsMsg ↔
        (f.tfjs = true ∧ f.pt = false ∧ f.jit = false ∧ dnn = false ∧
          f.onnx = false ∧ f.xml = false ∧ f.engine = false ∧ f.coreml = false ∧
          f.saved_model = false ∧ f.pb = false ∧ f.tflite = false ∧
          f.edgetpu = false)) ∧
    dmbInitDispatch (model_type "yolov5s_web_model") false = .error tfjsMsg := by
  constructor
  · intro f dnn
    rcases f with ⟨pt, jit, onnx, xml, engine, coreml, sm, pb, tfl, edge, tfjs⟩
    revert pt jit onnx xml engine coreml sm pb tfl edge tfjs dnn
    decide
  · decide

/-- C9: `Expand` with gain `s` inverts `Contract` with gain `s` on
tensors whose spatial sizes are multiples of `s`, and `Contract` inverts
`Expand` on tensors whose channel count is a multiple of `s²`. -/
theorem contract_expand_inverse :
    (∀ (s b c hh ww : ℕ) (α : Type) (x : T4 b c (hh * s) (ww * s) α),
      expand s (contract s x) = x) ∧
    (∀ (s b c hh ww : ℕ) (α : Type) (y : T4 b (s * s * c) hh ww α),
      contract s (expand s y) = y) := by
  constructor
  · intro s b c hh ww α x
    funext n cc a bx
    simp only [expand, contract, finFst_merge, finSnd_merge, finMerge_fst_snd]
  · intro s b c hh ww α y
    funext n k i j
    simp only [expand, contract, finFst_merge, finSnd_merge, finMerge_fst_snd]

theorem make_layer_kind (k : BKind) (i o d : ℕ) :
    ∀ bs ∈ make_layer k i o d, bs.kind = k := by
  intro bs hm
  obtain ⟨n, _, rfl⟩ := List.mem_map.mp hm
  by_cases h : n = 0 <;> simp [h]

theorem make_layer_head (k : BKind) (i o d : ℕ) (hd : 1 ≤ d) :
    (make_layer k i o d).head? = some ⟨k, i, o, true⟩ := by
  obtain ⟨m, rfl⟩ : ∃ m, d = m + 1 := ⟨d - 1, by omega⟩
  simp [make_layer, List.range_succ_eq_map]

theorem make_layer_tail_down (k : BKind) (i o d : ℕ) :
    ∀ bs ∈ (make_layer k i o d).tail, bs.downsample = false := by
  intro bs hm
  rcases d with _ | m
  · simp [make_layer] at hm
  · rw [make_layer, List.range_succ_eq_map, List.map_cons, List.tail_cons,
      List.map_map] at hm
    obtain ⟨n, _, rfl⟩ := List.mem_map.mp hm
    simp [Function.comp]

theorem stageRes_no_down (st : List BSpec) (h : ∀ bs ∈ st, bs.downsample = false) :
    ∀ r, stageRes st r = r := by
  induction st with
  | nil => intro r; rfl
  | cons a l ih =>
    intro r
    have ha := h a (by simp)
    have hres : stageRes (a :: l) r = stageRes l (blockRes a r) := rfl
    rw [hres, blockRes, ha]
    simp only [Bool.false_eq_true, if_false]
    exact ih (fun bs hm => h bs (List.mem_cons_of_mem a hm)) r

theorem stageRes_make_layer (k : BKind) (i o d : ℕ) (hd : 1 ≤ d) (r : ℕ) :
    stageRes (make_layer k i o d) r = r / 2 := by
  obtain ⟨m, rfl⟩ : ∃ m, d = m + 1 := ⟨d - 1, by omega⟩
  rw [make_layer, List.range_succ_eq_map, List.map_cons]
  have hcons : stageRes (⟨k, i, o, true⟩ :: ((List.range m).map Nat.succ).map
      (fun n => if n = 0 then (⟨k, i, o, true⟩ : BSpec) else ⟨k, o, o, false⟩)) r =
      stageRes (((List.range m).map Nat.succ).map
        (fun n => if n = 0 then (⟨k, i, o, true⟩ : BSpec) else ⟨k, o, o, false⟩))
        (blockRes ⟨k, i, o, true⟩ r) := rfl
  rw [if_pos rfl, hcons, blockRes]
  simp only [if_true]
  apply stageRes_no_down
  intro bs hm
  rw [List.map_map] at hm
  obtain ⟨n, _, rfl⟩ := List.mem_map.mp hm
  simp [Function.comp]

/-- C7: with the default `block_types=['C','C','T','T']`, `CoAtNet` builds
stage `s0` from plain 3×3 conv blocks and stages `s1`/`s2` from MBConv
blocks and `s3`/`s4` from Transformer blocks; in every stage only the
first block is constructed with `downsample=True`, the remaining
`depth-1` blocks preserve resolution, so the five stages reduce the
input resolution by a factor of 32 (ahead of `pool` and `fc`). -/
theorem coatnet_structure (inC n0 n1 n2 n3 n4 : ℕ) (ch : List ℕ) (r : ℕ)
    (h0 : 1 ≤ n0) (h1 : 1 ≤ n1) (h2 : 1 ≤ n2) (h3 : 1 ≤ n3) (h4 : 1 ≤ n4)
    (hr : 32 ∣ r) :
    ∃ sts, coatnetStages inC [n0, n1, n2, n3, n4] ch defaultBlockTypes = some sts ∧
      sts.length = 5 ∧
      (∀ bs ∈ sts.getD 0 [], bs.kind = BKind.conv3x3) ∧
      (∀ bs ∈ sts.getD 1 [], bs.kind = BKind.mbconv) ∧
      (∀ bs ∈ sts.getD 2 [], bs.kind = BKind.mbconv) ∧
      (∀ bs ∈ sts.getD 3 [], bs.kind = BKind.transf) ∧
      (∀ bs ∈ sts.getD 4 [], bs.kind = BKind.transf) ∧
      (∀ i : Fin 5, ((sts.getD i.val []).head?).all (fun bs => bs.downsample) = true ∧
        ∀ bs ∈ (sts.getD i.val []).tail, bs.downsample = false) ∧
      stagesRes sts r = r / 32 := by
  obtain ⟨t, rfl⟩ := hr
  refine ⟨_, rfl, rfl, ?_, ?_, ?_, ?_, ?_, ?_, ?_⟩
  · exact make_layer_kind _ _ _ _
  · exact make_layer_kind _ _ _ _
  · exact make_layer_kind _ _ _ _
  · exact make_layer_kind _ _ _ _
  · exact make_layer_kind _ _ _ _
  · intro i
    have hhead : ∀ (k : BKind) (ci co d : ℕ), 1 ≤ d →
        ((make_layer k ci co d).head?).all (fun bs => bs.downsample) = true := by
      intro k ci co d hd
      rw [make_layer_head k ci co d hd]
      rfl
    fin_cases i
    · exact ⟨hhead _ _ _ n0 h0, make_layer_tail_down _ _ _ _⟩
    · exact ⟨hhead _ _ _ n1 h1, make_layer_tail_down _ _ _ _⟩
    · exact ⟨hhead _ _ _ n2 h2, make_layer_tail_down _ _ _ _⟩
    · exact ⟨hhead _ _ _ n3 h3, make_layer_tail_down _ _ _ _⟩
    · exact ⟨hhead _ _ _ n4 h4, make_layer_tail_down _ _ _ _⟩
  · have e : stagesRes [make_layer BKind.conv3x3 inC (ch.getD 0 0) n0,
        make_layer BKind.mbconv (ch.getD 0 0) (ch.getD 1 0) n1,
        make_layer BKind.mbconv (ch.getD 1 0) (ch.getD 2 0) n2,
        make_layer BKind.transf (ch.getD 2 0) (ch.getD 3 0) n3,
        make_layer BKind.transf (ch.getD 3 0) (ch.getD 4 0) n4] (32 * t) =
        stageRes (make_layer BKind.transf (ch.getD 3 0) (ch.getD 4 0) n4)
          (stageRes (make_layer BKind.transf (ch.getD 2 0) (ch.getD 3 0) n3)
            (stageRes (make_layer BKind.mbconv (ch.getD 1 0) (ch.getD 2 0) n2)
              (stageRes (make_layer BKind.mbconv (ch.getD 0 0) (ch.getD 1 0) n1)
                (stageRes (make_layer BKind.conv3x3 inC (ch.getD 0 0) n0)
                  (32 * t))))) := rfl
    show stagesRes [make_layer BKind.conv3x3 inC (ch.getD 0 0) n0,
      make_layer BKind.mbconv (ch.getD 0 0) (ch.getD 1 0) n1,
      make_layer BKind.mbconv (ch.getD 1 0) (ch.getD 2 0) n2,
      make_layer BKind.transf (ch.getD 2 0) (ch.getD 3 0) n3,
      make_layer BKind.transf (ch.getD 3 0) (ch.getD 4 0) n4] (32 * t) = 32 * t / 32
    rw [e, stageRes_make_layer _ _ _ _ h0, stageRes_make_layer _ _ _ _ h1,
      stageRes_make_layer _ _ _ _ h2, stageRes_make_layer _ _ _ _ h3,
      stageRes_make_layer _ _ _ _ h4]
    omega

/-- Witness for C7 at the `coatnet_0` configuration
(`num_blocks = [2, 2, 3, 5, 2]`, `channels = [64, 96, 192, 384, 768]`,
224×224 input). -/
theorem coatnet_structure_witness :
    ∃ sts, coatnetStages 3 [2, 2, 3, 5, 2] [64, 96, 192, 384, 768]
        defaultBlockTypes = some sts ∧
      sts.length = 5 ∧
      (∀ bs ∈ sts.getD 0 [], bs.kind = BKind.conv3x3) ∧
      (∀ bs ∈ sts.getD 1 [], bs.kind = BKind.mbconv) ∧
      (∀ bs ∈ sts.getD 2 [], bs.kind = BKind.mbconv) ∧
      (∀ bs ∈ sts.getD 3 [], bs.kind = BKind.transf) ∧
      (∀ bs ∈ sts.getD 4 [], bs.kind = BKind.transf) ∧
      (∀ i : Fin 5, ((sts.getD i.val []).head?).all (fun bs => bs.downsample) = true ∧
        ∀ bs ∈ (sts.getD i.val []).tail, bs.downsample = false) ∧
      stagesRes sts 224 = 224 / 32 :=
  coatnet_structure 3 2 2 3 5 2 [64, 96, 192, 384, 768] 224
    (by decide) (by decide) (by decide) (by decide) (by decide) (by decide)

/-- C8: `SPPF` with `k=5` computes the same function as `SPP` with
`k=(5, 9, 13)` when both share the same `cv1`/`cv2`: cascading the
5×5 stride-1 max pool two and three times equals the 9×9 and 13×13
stride-1 max pools, so `SPPF`'s concatenation `(x, y1, y2, m(y2))`
equals `SPP`'s `[x, pool5(x), pool9(x), pool13(x)]` and the two
forwards agree on every input. -/
theorem sppf_equals_spp {h w : ℕ} (cv1 cv2 : List (Chan h w) → List (Chan h w))
    (x : List (Chan h w)) :
    (∀ c : Chan h w, poolK 5 (poolK 5 c) = poolK 9 c) ∧
    (∀ c : Chan h w, poolK 5 (poolK 5 (poolK 5 c)) = poolK 13 c) ∧
    (cv1 x ++ (cv1 x).map (poolK 5) ++ ((cv1 x).map (poolK 5)).map (poolK 5) ++
        (((cv1 x).map (poolK 5)).map (poolK 5)).map (poolK 5) =
      cv1 x ++ (([5, 9, 13] : List ℕ).map (fun k => (cv1 x).map (poolK k))).flatten) ∧
    SPPF_forward cv1 cv2 5 x = SPP_forward cv1 cv2 [5, 9, 13] x := by
  have p2 : ∀ c : Chan h w, poolK 5 (poolK 5 c) = poolK 9 c := by
    intro c
    show pool 2 2 (pool 2 2 c) = pool 4 4 c
    rw [pool_pool]
  have p3 : ∀ c : Chan h w, poolK 5 (poolK 5 (poolK 5 c)) = poolK 13 c := by
    intro c
    show pool 2 2 (pool 2 2 (pool 2 2 c)) = pool 6 6 c
    rw [pool_pool, pool_pool]
  have hf2 : (poolK 5 ∘ poolK 5 : Chan h w → Chan h w) = poolK 9 := by
    funext c
    show poolK 5 (poolK 5 c) = poolK 9 c
    exact p2 c
  have hf3 : (poolK 9 ∘ poolK 5 : Chan h w → Chan h w) = poolK 13 := by
    funext c
    show poolK 9 (poolK 5 c) = poolK 13 c
    show pool 4 4 (pool 2 2 c) = pool 6 6 c
    rw [pool_pool]
  have hm2 : ∀ y : List (Chan h w),
      (y.map (poolK 5)).map (poolK 5) = y.map (poolK 9) := by
    intro y
    rw [List.map_map, hf2]
  have hm3 : ∀ y : List (Chan h w),
      ((y.map (poolK 5)).map (poolK 5)).map (poolK 5) = y.map (poolK 13) := by
    intro y
    rw [hm2, List.map_map, hf3]
  have hcat : ∀ y : List (Chan h w),
      y ++ y.map (poolK 5) ++ (y.map (poolK 5)).map (poolK 5) ++
        ((y.map (poolK 5)).map (poolK 5)).map (poolK 5) =
      y ++ (([5, 9, 13] : List ℕ).map (fun k => y.map (poolK k))).flatten := by
    intro y
    rw [hm3, hm2]
    simp [List.append_assoc]
  refine ⟨p2, p3, hcat (cv1 x), ?_⟩
  simp only [SPPF_forward, SPP_forward]
  exact congrArg cv2 (hcat (cv1 x))

/-- C5: the channel attention modules are multiplicative reweighting
blocks: `SE.forward` and `ECA.forward` return their input multiplied
elementwise by a per-channel sigmoid weight (so each weight lies strictly
in (0,1)) and preserve the input's shape (the output is a tensor over the
same index sets); `ChannelAttention.forward` produces such per-channel
sigmoid weights and the `CBAMBottleneck` reweighting step multiplies the
input by them elementwise. -/
theorem attention_sigmoid_reweighting :
    (∀ (b c h w r : ℕ) (p : SEParams c r) (x : T4 b c h w ℝ),
      ∃ wt : Fin b → Fin c → ℝ,
        (∀ n i a e, SE_forward p x n i a e = x n i a e * wt n i) ∧
        ∀ n i, wt n i ∈ Set.Ioo (0 : ℝ) 1) ∧
    (∀ (b c h w k : ℕ) (p : ECAParams k) (x : T4 b c h w ℝ),
      ∃ wt : Fin b → Fin c → ℝ,
        (∀ n i a e, ECA_forward p x n i a e = x n i a e * wt n i) ∧
        ∀ n i, wt n i ∈ Set.Ioo (0 : ℝ) 1) ∧
    (∀ (b c h w r : ℕ) (p : CAParams c r) (x1 : T4 b c (h + 1) (w + 1) ℝ),
      ∃ wt : Fin b → Fin c → ℝ,
        (∀ n i, ChannelAttention_forward p x1 n i = wt n i) ∧
        (∀ n i a e, cbamChannelReweight p x1 n i a e = x1 n i a e * wt n i) ∧
        ∀ n i, wt n i ∈ Set.Ioo (0 : ℝ) 1) := by
  refine ⟨?_, ?_, ?_⟩
  · intro b c h w r p x
    exact ⟨fun n i =>
        sigmoid (linearNB p.w2 (fun j => relu (linearNB p.w1 (avgpool2 x n) j)) i),
      fun n i a e => rfl, fun n i => sigmoid_mem_Ioo _⟩
  · intro b c h w k p x
    exact ⟨fun n i =>
        sigmoid (∑ d : Fin k,
          p.kw d * pad1 (avgpool2 x n) ((i.val : ℤ) + d.val - ((k - 1) / 2 : ℕ))),
      fun n i a e => rfl, fun n i => sigmoid_mem_Ioo _⟩
  · intro b c h w r p x1
    exact ⟨fun n i => ChannelAttention_forward p x1 n i,
      fun n i => rfl,
      fun n i a e => mul_comm _ _,
      fun n i => sigmoid_mem_Ioo _⟩

/-- C2: `DetectMultiBackend.forward` is a sequential if/elif dispatch: on
every successful call exactly one backend branch executes — the one
selected from the boolean flags (fixed at construction) in the priority
order PyTorch, TorchScript, OpenCV DNN, ONNX Runtime, OpenVINO, TensorRT,
CoreML, TensorFlow — and that branch makes a single synchronous vendor
call (the call log has exactly that one entry; no retry or concurrency
exists in the model). -/
theorem dmbForwardRaw_log (env : DmbEnv) (f : Flags)
    (dnn augment visualize : Bool) (im : TorchT) (yl : YVal × List Call)
    (h : dmbForwardRaw env f dnn augment visualize im = .ok yl) :
    yl.2 = [priorityCall f dnn] := by
  rw [dmbForwardRaw] at h
  unfold priorityCall
  by_cases h1 : f.pt = true
  · rw [if_pos h1] at h; rw [if_pos h1]; injection h with hinj; rw [← hinj]
  · rw [if_neg h1] at h; rw [if_neg h1]
    by_cases h2 : f.jit = true
    · rw [if_pos h2] at h; rw [if_pos h2]; injection h with hinj; rw [← hinj]
    · rw [if_neg h2] at h; rw [if_neg h2]
      by_cases h3 : dnn = true
      · rw [if_pos h3] at h; rw [if_pos h3]; injection h with hinj; rw [← hinj]
      · rw [if_neg h3] at h; rw [if_neg h3]
        by_cases h4 : f.onnx = true
        · rw [if_pos h4] at h; rw [if_pos h4]; injection h with hinj; rw [← hinj]
        · rw [if_neg h4] at h; rw [if_neg h4]
          by_cases h5 : f.xml = true
          · rw [if_pos h5] at h; rw [if_pos h5]; injection h with hinj; rw [← hinj]
          · rw [if_neg h5] at h; rw [if_neg h5]
            by_cases h6 : f.engine = true
            · rw [if_pos h6] at h; rw [if_pos h6]
              by_cases h7 : im.shape = env.engineShape
              · rw [if_pos h7] at h; injection h with hinj; rw [← hinj]
              · rw [if_neg h7] at h
                exact absurd h (fun hc => Except.noConfusion hc)
            · rw [if_neg h6] at h; rw [if_neg h6]
              by_cases h8 : f.coreml = true
              · rw [if_pos h8] at h; rw [if_pos h8]
                injection h with hinj; rw [← hinj]
              · rw [if_neg h8] at h; rw [if_neg h8]
                by_cases h9 : f.saved_model = true
                · rw [if_pos h9] at h; rw [if_pos h9]
                  injection h with hinj; rw [← hinj]
                · rw [if_neg h9] at h; rw [if_neg h9]
                  by_cases h10 : f.pb = true
                  · rw [if_pos h10] at h; rw [if_pos h10]
                    injection h with hinj; rw [← hinj]
                  · rw [if_neg h10] at h; rw [if_neg h10]
                    injection h with hinj; rw [← hinj]

theorem dmb_forward_single_dispatch (env : DmbEnv) (f : Flags)
    (dnn augment visualize val : Bool) (im : TorchT) (r : FwdRet × List Call)
    (hok : dmbForward env f dnn augment visualize val im = .ok r) :
    r.2 = [priorityCall f dnn] := by
  rcases hmap : dmbForwardRaw env f dnn augment visualize im with e | yl
  · rw [dmbForward, hmap] at hok
    exact absurd hok (by simp [Except.map])
  · rw [dmbForward, hmap] at hok
    simp only [Except.map, Except.ok.injEq] at hok
    have hr2 : r.2 = yl.2 := by rw [← hok]
    rw [hr2]
    exact dmbForwardRaw_log env f dnn augment visualize im yl hmap

/-- Environment with trivial vendor calls, for concrete evaluation. -/
def dmbEnvTriv : DmbEnv where
  device := 7
  ptModel := fun t _ _ => t
  jitModel := fun t => t
  dnnNet := fun a => a
  onnxSession := fun a => a
  xmlNet := fun a => a
  engineShape := []
  engineExec := fun t => t
  coremlPredict := fun _ => .varDict []
  coremlDecode := fun a _ _ _ => a
  tfSaved := fun a => a
  tfFrozen := fun a => a
  tfliteInvoke := fun a => a
  int8 := false
  inScale := 1
  inZero := 0
  outScale := 1
  outZero := 0

/-- Flags of an ONNX Runtime model. -/
def onnxFlags : Flags :=
  ⟨false, false, true, false, false, false, false, false, false, false, false⟩

/-- A 1×3×2×2 zero input tensor. -/
def imTriv : TorchT := ⟨0, [1, 3, 2, 2], fun _ => 0⟩

/-- Witness for C2: a concrete ONNX-flagged forward makes exactly the
ONNX Runtime call. -/
theorem dmb_forward_single_dispatch_witness :
    ∃ r, dmbForward dmbEnvTriv onnxFlags false false false false imTriv = .ok r ∧
      r.2 = [priorityCall onnxFlags false] :=
  ⟨_, rfl,
    dmb_forward_single_dispatch dmbEnvTriv onnxFlags false false false false
      imTriv _ rfl⟩

/-- C6: `DetectMultiBackend.forward` returns a uniform type across all
backends: on every successful call the returned value is a torch tensor;
whenever the selected branch produced a numpy array it is converted to a
torch tensor on the wrapper's device; and the method returns the pair
`(y, [])` when `val=True` and `y` alone when `val=False`. -/
theorem dmb_forward_uniform_return (env : DmbEnv) (f : Flags)
    (dnn augment visualize val : Bool) (im : TorchT) (ret : FwdRet)
    (log : List Call)
    (hok : dmbForward env f dnn augment visualize val im = .ok (ret, log)) :
    ∃ t : TorchT,
      (val = true → ret = .pair (.torch t) []) ∧
      (val = false → ret = .single (.torch t)) ∧
      (∀ a l2, dmbForwardRaw env f dnn augment visualize im = .ok (.numpy a, l2) →
        t.dev = env.device ∧ t.shape = a.shape ∧ t.dat = a.dat) := by
  rcases hmap : dmbForwardRaw env f dnn augment visualize im with e | yl
  · rw [dmbForward, hmap] at hok
    exact absurd hok (by simp [Except.map])
  · rw [dmbForward, hmap] at hok
    simp only [Except.map, Except.ok.injEq, Prod.mk.injEq] at hok
    obtain ⟨hret, hlog⟩ := hok
    rcases yl with ⟨y, lg⟩
    cases y with
    | torch t =>
      refine ⟨t, ?_, ?_, ?_⟩
      · intro hv; subst hv; rw [← hret]; rfl
      · intro hv; subst hv; rw [← hret]; rfl
      · intro a l2 hraw2
        simp at hraw2
    | numpy a0 =>
      refine ⟨⟨env.device, a0.shape, a0.dat⟩, ?_, ?_, ?_⟩
      · intro hv; subst hv; rw [← hret]; rfl
      · intro hv; subst hv; rw [← hret]; rfl
      · intro a l2 hraw2
        simp only [Except.ok.injEq, Prod.mk.injEq, YVal.numpy.injEq] at hraw2
        rw [hraw2.1]
        exact ⟨rfl, rfl, rfl⟩

/-- Witness for C6: a concrete ONNX-flagged forward with `val=True`
returns `(torch tensor on the wrapper device, [])`. -/
theorem dmb_forward_uniform_return_witness :
    ∃ ret log,
      dmbForward dmbEnvTriv onnxFlags false false false true imTriv =
        .ok (ret, log) ∧
      ∃ t : TorchT,
        (true = true → ret = FwdRet.pair (YVal.torch t) []) ∧
        (true = false → ret = FwdRet.single (YVal.torch t)) ∧
        (∀ a l2, dmbForwardRaw dmbEnvTriv onnxFlags false false false imTriv =
            .ok (.numpy a, l2) →
          t.dev = dmbEnvTriv.device ∧ t.shape = a.shape ∧ t.dat = a.dat) :=
  ⟨_, _, rfl,
    dmb_forward_uniform_return dmbEnvTriv onnxFlags false false false true
      imTriv _ _ rfl⟩

/-- C1: on every non-tensor input batch, `AutoShape.forward` runs
pre-processing (decode/convert each image to 3-channel HWC, letterbox-pad
every image to the one common inference shape, stack/transpose to BCHW,
scale pixels by 1/255 — the tensor's shape is `[n, 3, th, tw]`), then the
wrapped model's forward pass, then `non_max_suppression`, then rescaling
of the surviving boxes back to each original image shape, and returns a
`Detections` holding the converted images, the predictions, the
filenames, and the four timings. -/
theorem autoShape_pipeline (env : AsEnv) (size : ℕ) (inputs : List ImInput)
    (augment profile : Bool) (hne : inputs ≠ [])
    (hgood : ∀ inp ∈ inputs, goodShape (decoded env inp).shape) :
    (autoShapeForward env size inputs augment profile).imgs =
        inputs.map (processImg env) ∧
    (∀ im ∈ inputs.map (processImg env),
        im.shape.length = 3 ∧ im.shape.getD 2 0 = 3) ∧
    (∀ im ∈ inputs.map (processImg env),
        (letterbox im (asTarget env size (inputs.map (processImg env)))).shape =
          [(asTarget env size (inputs.map (processImg env))).1,
            (asTarget env size (inputs.map (processImg env))).2, 3]) ∧
    (autoShapeForward env size inputs augment profile).s =
        [inputs.length, 3,
          (asTarget env size (inputs.map (processImg env))).1,
          (asTarget env size (inputs.map (processImg env))).2] ∧
    (autoShapeForward env size inputs augment profile).pred =
        ((non_max_suppression env.suppress
            (if env.dmb then
              env.dmbModel (asTensor env size inputs) augment profile
            else (env.ptModel (asTensor env size inputs) augment profile).1)
            AutoShape_conf AutoShape_iou AutoShape_classes AutoShape_agnostic
            AutoShape_multi_label AutoShape_max_det).zip
          ((inputs.map (processImg env)).map
            (fun im => (im.shape.getD 0 0, im.shape.getD 1 0)))).map
          (fun p => p.1.map
            (fun d => scale_coords
              (asTarget env size (inputs.map (processImg env))) d p.2)) ∧
    (autoShapeForward env size inputs augment profile).files =
        inputs.enum.map (fun ie => withSuffixJpg (inputName ie.1 ie.2)) ∧
    (autoShapeForward env size inputs augment profile).times =
        [env.clock 0, env.clock 1, env.clock 2, env.clock 3] := by
  have hA : ∀ im ∈ inputs.map (processImg env),
      im.shape.length = 3 ∧ im.shape.getD 2 0 = 3 := by
    intro im hm
    obtain ⟨inp, hin, rfl⟩ := List.mem_map.mp hm
    have hg := hgood inp hin
    simp only [processImg]
    rcases hg with ⟨hl, h5⟩ | ⟨hl, h5, h3⟩ | ⟨hl, h0, h5⟩
    · rw [if_neg (by omega)]
      unfold enforce3ch
      rw [if_neg (by rw [hl]; omega)]
      exact ⟨rfl, rfl⟩
    · rw [if_neg (by omega)]
      unfold enforce3ch
      rw [if_pos hl]
      refine ⟨rfl, ?_⟩
      show min ((decoded env inp).shape.getD 2 0) 3 = 3
      omega
    · rw [if_pos (by omega)]
      unfold enforce3ch
      rw [if_pos (show (transpose120 (decoded env inp)).shape.length = 3 from rfl)]
      refine ⟨rfl, ?_⟩
      show min ((decoded env inp).shape.getD 0 0) 3 = 3
      omega
  refine ⟨rfl, hA, ?_, ?_, rfl, rfl, rfl⟩
  · intro im hm
    have h3 := (hA im hm).2
    simp only [letterbox]
    rw [h3]
  · rcases inputs with _ | ⟨a, l⟩
    · exact absurd rfl hne
    · have h3 := (hA (processImg env a) (by simp)).2
      simp only [autoShapeForward, asTarget, stackT, List.map_cons,
        List.headD_cons, letterbox, List.length_map, List.length_cons,
        List.getD_cons_succ, List.getD_cons_zero]
      rw [h3]

/-- Trivial wrapped-model environment for concrete evaluation. -/
def asEnvTriv : AsEnv where
  stride := 32
  pt := true
  dmb := false
  names := []
  exif := fun a => a
  dmbModel := fun _ _ _ => []
  ptModel := fun _ _ _ => ([], [])
  suppress := fun _ _ _ _ l => l
  clock := fun _ => 0

/-- A 5×5×3 zero image. -/
def imgTriv : NpArr3 := ⟨[5, 5, 3], fun _ _ _ => 0⟩

/-- A one-image input batch. -/
def inputsTriv : List ImInput := [.arr imgTriv]

/-- Witness for C1 at a concrete one-image batch. -/
theorem autoShape_pipeline_witness :
    (autoShapeForward asEnvTriv 640 inputsTriv false false).imgs =
        inputsTriv.map (processImg asEnvTriv) ∧
    (∀ im ∈ inputsTriv.map (processImg asEnvTriv),
        im.shape.length = 3 ∧ im.shape.getD 2 0 = 3) ∧
    (∀ im ∈ inputsTriv.map (processImg asEnvTriv),
        (letterbox im
            (asTarget asEnvTriv 640 (inputsTriv.map (processImg asEnvTriv)))).shape =
          [(asTarget asEnvTriv 640 (inputsTriv.map (processImg asEnvTriv))).1,
            (asTarget asEnvTriv 640 (inputsTriv.map (processImg asEnvTriv))).2, 3]) ∧
    (autoShapeForward asEnvTriv 640 inputsTriv false false).s =
        [inputsTriv.length, 3,
          (asTarget asEnvTriv 640 (inputsTriv.map (processImg asEnvTriv))).1,
          (asTarget asEnvTriv 640 (inputsTriv.map (processImg asEnvTriv))).2] ∧
    (autoShapeForward asEnvTriv 640 inputsTriv false false).pred =
        ((non_max_suppression asEnvTriv.suppress
            (if asEnvTriv.dmb then
              asEnvTriv.dmbModel (asTensor asEnvTriv 640 inputsTriv) false false
            else (asEnvTriv.ptModel (asTensor asEnvTriv 640 inputsTriv) false false).1)
            AutoShape_conf AutoShape_iou AutoShape_classes AutoShape_agnostic
            AutoShape_multi_label AutoShape_max_det).zip
          ((inputsTriv.map (processImg asEnvTriv)).map
            (fun im => (im.shape.getD 0 0, im.shape.getD 1 0)))).map
          (fun p => p.1.map
            (fun d => scale_coords
              (asTarget asEnvTriv 640 (inputsTriv.map (processImg asEnvTriv))) d p.2)) ∧
    (autoShapeForward asEnvTriv 640 inputsTriv false false).files =
        inputsTriv.enum.map (fun ie => withSuffixJpg (inputName ie.1 ie.2)) ∧
    (autoShapeForward asEnvTriv 640 inputsTriv false false).times =
        [asEnvTriv.clock 0, asEnvTriv.clock 1, asEnvTriv.clock 2,
          asEnvTriv.clock 3] :=
  autoShape_pipeline asEnvTriv 640 inputsTriv false false
    (List.cons_ne_nil _ _)
    (by intro inp hm
        unfold inputsTriv at hm
        rw [List.mem_singleton] at hm
        subst hm
        decide)

/-- C4: `AutoShape` post-processes with `non_max_suppression` at its
class-attribute defaults — `conf = 0.25`, `iou = 0.45`,
`max_det = 1000`, `classes = None`, `agnostic = False`,
`multi_label = False` — and `forward` passes exactly these attributes, so
every per-image prediction list in the returned `Detections` has at most
1000 rows. -/
theorem autoShape_nms_defaults :
    AutoShape_conf = 25 / 100 ∧ AutoShape_iou = 45 / 100 ∧
    AutoShape_max_det = 1000 ∧ AutoShape_classes = none ∧
    AutoShape_agnostic = false ∧ AutoShape_multi_label = false ∧
    ∀ (env : AsEnv) (size : ℕ) (inputs : List ImInput) (augment profile : Bool),
      (autoShapeForward env size inputs augment profile).pred =
        ((non_max_suppression env.suppress
            (if env.dmb then
              env.dmbModel (asTensor env size inputs) augment profile
            else (env.ptModel (asTensor env size inputs) augment profile).1)
            AutoShape_conf AutoShape_iou AutoShape_classes AutoShape_agnostic
            AutoShape_multi_label AutoShape_max_det).zip
          ((inputs.map (processImg env)).map
            (fun im => (im.shape.getD 0 0, im.shape.getD 1 0)))).map
          (fun p => p.1.map
            (fun d => scale_coords
              (asTarget env size (inputs.map (processImg env))) d p.2)) ∧
      ∀ i : ℕ,
        ((autoShapeForward env size inputs augment profile).pred.getD i []).length
          ≤ 1000 := by
  refine ⟨rfl, rfl, rfl, rfl, rfl, rfl, ?_⟩
  intro env size inputs augment profile
  refine ⟨rfl, ?_⟩
  have hb : ∀ rows ∈ (autoShapeForward env size inputs augment profile).pred,
      rows.length ≤ 1000 := by
    intro rows hm
    obtain ⟨⟨rows0, s0⟩, hmem, rfl⟩ := List.mem_map.mp hm
    simp only [List.length_map]
    have h1 := (List.of_mem_zip hmem).1
    obtain ⟨cand, _, rfl⟩ := List.mem_map.mp h1
    exact List.length_take_le _ _
  intro i
  by_cases hi : i < (autoShapeForward env size inputs augment profile).pred.length
  · rw [List.getD_eq_getElem _ _ hi]
    exact hb _ (List.getElem_mem hi)
  · rw [List.getD_eq_default _ _ (by omega)]
    simp

end YoloCommon
